import Mathlib

/-!
Verification development for the R1CS-to-SparseR1CS lowering pass of the
gnark fork under study (frontend/cs_to_r1cs_sparse.go) and the BW6-672
witness serialization (internal/backend/bw6-672/witness/witness.go).

The Go code is shallowly embedded: big.Int coefficients become Int,
bit-packed compiled.Term values become a three-field structure (the bit
layout is internal per the specification, only the triple and the zero
sentinel are observable), and the mutable sparseR1CS builder becomes
explicit state passing.  Go panics (out-of-range slice indexing,
make with negative length) are modelled as Option.none where they are
reachable.
-/

namespace GnarkScs

/-- Modelled from the spec: visibility of a variable, one of
Public, Secret, Internal, Unset; the zero value is Unset
(the compiled package itself is not part of the sources, only its
callers are, so the codec is taken from the specification). -/
inductive Visibility where
  | unset
  | internal
  | secret
  | public
deriving DecidableEq, Repr

/-- Modelled from the spec: a Term packs (coeffID, varID, visibility).
The all-zero packed word is a dedicated sentinel meaning absent; with the
structure representation it is the triple (0, 0, unset). -/
structure Term where
  coeffID : Nat
  varID : Nat
  vis : Visibility
deriving DecidableEq, Repr

/-- The zero Term: the Go code compares terms against the literal 0. -/
def Term.sentinel : Term := ⟨0, 0, .unset⟩

instance : Inhabited Term := ⟨Term.sentinel⟩

/-- Solver tag of a constraint / gate.  compiled.SingleOutput is the Go
zero value, hence the default of every SparseR1C literal. -/
inductive SolverTag where
  | singleOutput
  | binaryDec
deriving DecidableEq, Repr

/-- An input R1C constraint: L, R, O linear expressions and a solver tag
(semantics: sum(L) * sum(R) = sum(O)). -/
structure R1C where
  L : List Term := []
  R : List Term := []
  O : List Term := []
  solver : SolverTag := .singleOutput
deriving DecidableEq, Repr

/-- An output PLONK gate.  The Go array M[2] is flattened to M0, M1.
Fields left out of a Go composite literal take the zero value, which the
field defaults reproduce. -/
structure SparseR1C where
  L : Term := Term.sentinel
  R : Term := Term.sentinel
  M0 : Term := Term.sentinel
  M1 : Term := Term.sentinel
  O : Term := Term.sentinel
  K : Nat := 0
  solver : SolverTag := .singleOutput
deriving DecidableEq, Repr

instance : Inhabited SparseR1C := ⟨{}⟩

/-- The sparseR1CS builder state: the coefficient pool (shared with the
input ConstraintSystem), the compiled counters and gate lists, and the
two side arrays mCStoCCS and solvedVariables. -/
structure SCS where
  coeffs : List Int
  nbInternal : Nat := 0
  constraints : List SparseR1C := []
  assertions : List SparseR1C := []
  mCStoCCS : List Nat := []
  solvedVariables : List Bool := []
deriving DecidableEq, Repr

/-- Index of the first occurrence of a value in the pool. -/
def poolIndex (x : Int) : List Int → Option Nat
  | [] => none
  | c :: rest => if c = x then some 0 else (poolIndex x rest).map (· + 1)

/-- Modelled from the spec: ConstraintSystem.coeffID interns a scalar in
the append-only pool, returning the existing index when the value is
already present (indices 0,1,2,3 hold 0,1,-1,2). -/
def SCS.coeffID (s : SCS) (x : Int) : SCS × Nat :=
  match poolIndex x s.coeffs with
  | some i => (s, i)
  | none => ({ s with coeffs := s.coeffs ++ [x] }, s.coeffs.length)

/-- popConstantTerm: remove the first ONE_WIRE term (varID 0, Public) and
return its pool coefficient; otherwise the expression is unchanged and
the constant is 0. -/
def popConstAux (pool : List Int) : List Term → Option (List Term × Int)
  | [] => none
  | t :: rest =>
    if t.varID = 0 ∧ t.vis = .public then
      some (rest, pool.getD t.coeffID 0)
    else
      match popConstAux pool rest with
      | some (l, c) => some (t :: l, c)
      | none => none

def SCS.popConstantTerm (s : SCS) (l : List Term) : List Term × Int :=
  (popConstAux s.coeffs l).getD (l, 0)

/-- getCorrespondingTerm: an internal variable is replaced by its ccs
counterpart through mCStoCCS. -/
def SCS.getCorrespondingTerm (s : SCS) (t : Term) : Term :=
  if t.vis = .internal then { t with varID := s.mCStoCCS.getD t.varID 0 } else t

/-- newTerm: allocate a fresh internal ccs variable carrying the given
coefficient. -/
def SCS.newTerm (s : SCS) (c : Int) : SCS × Term :=
  let (s1, cid) := s.coeffID c
  (( { s1 with nbInternal := s1.nbInternal + 1 } : SCS), ⟨cid, s1.nbInternal, .internal⟩)

/-- newTerm with an idCS argument: additionally records mCStoCCS[idCS]. -/
def SCS.newTermIdx (s : SCS) (c : Int) (idCS : Nat) : SCS × Term :=
  let (s1, t) := s.newTerm c
  ({ s1 with mCStoCCS := s1.mCStoCCS.set idCS t.varID }, t)

/-- The slot alignment addConstraint performs before storing a gate:
variable IDs are copied into sentinel L/R/M0/M1 slots, in the order the
Go code performs the four updates. -/
def fixupGate (c : SparseR1C) : SparseR1C :=
  let c := if c.L = Term.sentinel then { c with L := { c.L with varID := c.M0.varID } } else c
  let c := if c.R = Term.sentinel then { c with R := { c.R with varID := c.M1.varID } } else c
  let c := if c.M0 = Term.sentinel then { c with M0 := { c.M0 with varID := c.L.varID } } else c
  if c.M1 = Term.sentinel then { c with M1 := { c.M1 with varID := c.R.varID } } else c

/-- addConstraint: record a gate under Constraints after the sentinel
variable-id alignment. -/
def SCS.addConstraint (s : SCS) (c : SparseR1C) : SCS :=
  { s with constraints := s.constraints ++ [fixupGate c] }

/-- recordAssertion: record a gate under Assertions, as is. -/
def SCS.recordAssertion (s : SCS) (c : SparseR1C) : SCS :=
  { s with assertions := s.assertions ++ [c] }

/-- negate: the zero term stays zero; otherwise the coefficient is
replaced by the interned negation. -/
def SCS.negate (s : SCS) (t : Term) : SCS × Term :=
  if t = Term.sentinel then (s, t)
  else
    let c := -(s.coeffs.getD t.coeffID 0)
    let (s1, cid) := s.coeffID c
    (s1, { t with coeffID := cid })

/-- multiply: multiply a term by a scalar, with the Go fast paths for
0, 1 and -1 (the -1 path only swaps the well-known indices 1 and 2,
falling through to the generic path otherwise). -/
def SCS.multiply (s : SCS) (t : Term) (c : Int) : SCS × Term :=
  if c = 0 then (s, { t with coeffID := 0 })
  else if c = 1 then (s, t)
  else if c = -1 ∧ t.coeffID = 0 then (s, t)
  else if c = -1 ∧ t.coeffID = 1 then (s, { t with coeffID := 2 })
  else if c = -1 ∧ t.coeffID = 2 then (s, { t with coeffID := 1 })
  else
    let v := s.coeffs.getD t.coeffID 0 * c
    let (s1, cid) := s.coeffID v
    (s1, { t with coeffID := cid })

/-- split: collapse a linear expression into a single term by a chain of
addition gates; returns the accumulator unchanged on the empty list. -/
def SCS.split (s : SCS) (acc : Term) (le : List Term) : SCS × Term :=
  match le with
  | [] => (s, acc)
  | x :: rest =>
    if acc = Term.sentinel then
      let t := s.getCorrespondingTerm x
      s.split t rest
    else
      let r := s.getCorrespondingTerm x
      let (s1, o) := s.newTerm 1
      let s2 := s1.addConstraint { L := acc, R := r, O := o }
      let (s3, o') := s2.negate o
      s3.split o' rest

/-- The left-to-right scan of one linear expression inside
findUnsolvedVariable.  The running id is written for every Internal term
(solved or not) exactly as the Go loop assigns id before testing
solvedVariables; the first unsolved Internal term stops the scan. -/
def scanLE (solved : List Bool) : List Term → Int → Option Int × Int
  | [], id => (none, id)
  | t :: rest, id =>
    if t.vis ≠ .internal then scanLE solved rest id
    else if solved.getD t.varID false then scanLE solved rest (t.varID : Int)
    else (some (t.varID : Int), (t.varID : Int))

/-- findUnsolvedVariable: scan L, then R, then O for the first Internal
term not yet solved; pos is 0/1/2, or -1 when none is found (in which
case id keeps the last value the scans assigned to it). -/
def findUnsolvedVariable (r1c : R1C) (solved : List Bool) : Int × Int :=
  match scanLE solved r1c.L (-1) with
  | (some i, _) => (0, i)
  | (none, id1) =>
    match scanLE solved r1c.R id1 with
    | (some i, _) => (1, i)
    | (none, id2) =>
      match scanLE solved r1c.O id2 with
      | (some i, _) => (2, i)
      | (none, id3) => (-1, id3)

/-- popInternalVariable: remove the terms holding internal variable id
from l into a fixed array of length (length l - 1).  The Go code panics
(modelled as none) when l is empty (make with negative length) or when no
term matches (the copy index runs past the end); with several matches the
spare slots stay zero and the last match is returned. -/
def popInternalVariable (l : List Term) (id : Int) : Option (List Term × Term) :=
  if l.length = 0 then none
  else
    let keep := l.filter (fun v => ¬(v.vis = .internal ∧ (v.varID : Int) = id))
    if l.length - 1 < keep.length then none
    else
      some (keep ++ List.replicate (l.length - 1 - keep.length) Term.sentinel,
        (l.filter (fun v => v.vis = .internal ∧ (v.varID : Int) = id)).getLastD Term.sentinel)

/-!
The sixteen case bodies f1..f16 of r1cToPlonkConstraintSingleOutput.
Pool-mutating calls (coeffID, newTerm, negate, multiply, split) are
sequenced exactly as the Go code evaluates them, including the
left-to-right evaluation of calls inside each composite literal.
-/

/-- Case 0b1000: cL*cR = toSolve + cO. -/
def SCS.f1 (s : SCS) (cL cR cO cS : Int) (idCS : Nat) : SCS :=
  let cK := cL * cR - cO
  let (s, kid) := s.coeffID cK
  let (s, ov) := s.newTermIdx (-cS) idCS
  s.addConstraint { K := kid, O := ov }

/-- Case 0b1001: cL*(r + cR) = toSolve + cO. -/
def SCS.f2 (s : SCS) (r : List Term) (cL cR cO cS : Int) (idCS : Nat) : SCS :=
  let (s, rt) := s.split Term.sentinel r
  let (s, cRT) := s.multiply rt cL
  let cK := cL * cR - cO
  let (s, kid) := s.coeffID cK
  let (s, ov) := s.newTermIdx (-cS) idCS
  s.addConstraint { R := cRT, K := kid, O := ov }

/-- Case 0b1010: (l + cL)*cR = toSolve + cO.  In the Go literal the O
field (newTerm) is written before K (coeffID). -/
def SCS.f3 (s : SCS) (l : List Term) (cL cR cO cS : Int) (idCS : Nat) : SCS :=
  let (s, lt) := s.split Term.sentinel l
  let (s, cRLT) := s.multiply lt cR
  let cK := cL * cR - cO
  let (s, ov) := s.newTermIdx (-cS) idCS
  let (s, kid) := s.coeffID cK
  s.addConstraint { L := cRLT, O := ov, K := kid }

/-- Case 0b1011: (l + cL)*(r + cR) = toSolve + cO. -/
def SCS.f4 (s : SCS) (l r : List Term) (cL cR cO cS : Int) (idCS : Nat) : SCS :=
  let (s, lt) := s.split Term.sentinel l
  let (s, rt) := s.split Term.sentinel r
  let (s, cRLT) := s.multiply lt cR
  let (s, cRT) := s.multiply rt cL
  let cK := cL * cR - cO
  let (s, kid) := s.coeffID cK
  let (s, ov) := s.newTermIdx (-cS) idCS
  s.addConstraint { L := cRLT, R := cRT, M0 := lt, M1 := rt, K := kid, O := ov }

/-- Case 0b1100: cL*cR = toSolve + o + cO.  The constant is negated by the
source before interning. -/
def SCS.f5 (s : SCS) (o : List Term) (cL cR cO cS : Int) (idCS : Nat) : SCS :=
  let (s, ot) := s.split Term.sentinel o
  let cK := -(cL * cR - cO)
  let (s, kid) := s.coeffID cK
  let (s, ov) := s.newTermIdx (-cS) idCS
  s.addConstraint { L := ot, K := kid, O := ov }

/-- Case 0b1101: cL*(r + cR) = toSolve + o + cO. -/
def SCS.f6 (s : SCS) (r o : List Term) (cL cR cO cS : Int) (idCS : Nat) : SCS :=
  let (s, rt) := s.split Term.sentinel r
  let (s, ot) := s.split Term.sentinel o
  let (s, cRT) := s.multiply rt cL
  let cK := -(cL * cR - cO)
  let (s, nt) := s.negate ot
  let (s, kid) := s.coeffID cK
  let (s, ov) := s.newTermIdx (-cS) idCS
  s.addConstraint { L := nt, R := cRT, K := kid, O := ov }

/-- Case 0b1110: (l + cL)*cR = toSolve + o + cO. -/
def SCS.f7 (s : SCS) (l o : List Term) (cL cR cO cS : Int) (idCS : Nat) : SCS :=
  let (s, lt) := s.split Term.sentinel l
  let (s, ot) := s.split Term.sentinel o
  let (s, cRLT) := s.multiply lt cR
  let cK := -(cL * cR - cO)
  let (s, nt) := s.negate ot
  let (s, kid) := s.coeffID cK
  let (s, ov) := s.newTermIdx (-cS) idCS
  s.addConstraint { R := nt, L := cRLT, K := kid, O := ov }

/-- Case 0b1111: (l + cL)*(r + cR) = toSolve + o + cO (two gates through
the fresh wire u). -/
def SCS.f8 (s : SCS) (l r o : List Term) (cL cR cO cS : Int) (idCS : Nat) : SCS :=
  let (s, lt) := s.split Term.sentinel l
  let (s, rt) := s.split Term.sentinel r
  let (s, ot) := s.split Term.sentinel o
  let (s, cRLT) := s.multiply lt cR
  let (s, cRT) := s.multiply rt cL
  let cK := -(cL * cR - cO)
  let (s, u) := s.newTerm 1
  let (s, kid) := s.coeffID cK
  let s := s.addConstraint { L := cRLT, R := cRT, M0 := lt, M1 := rt, K := kid, O := u }
  let (s, ov) := s.newTermIdx cS idCS
  s.addConstraint { L := u, R := ot, O := ov }

/-- Case 0b0000: (toSolve + cL)*cR = cO. -/
def SCS.f9 (s : SCS) (cL cR cO cS : Int) (idCS : Nat) : SCS :=
  let cK := cL * cR - cO
  let (s, lt) := s.newTermIdx (cS * cR) idCS
  let (s, kid) := s.coeffID cK
  s.addConstraint { L := lt, K := kid }

/-- Case 0b0001: (toSolve + cL)*(r + cR) = cO. -/
def SCS.f10 (s : SCS) (r : List Term) (cL cR cO cS : Int) (idCS : Nat) : SCS :=
  let (s, res) := s.newTermIdx cS idCS
  let (s, rt) := s.split Term.sentinel r
  let (s, cRT) := s.multiply rt cL
  let (s, cRes) := s.multiply res cR
  let cK := cL * cR - cO
  let (s, kid) := s.coeffID cK
  s.addConstraint { L := cRes, R := cRT, M0 := res, M1 := rt, K := kid }

/-- Case 0b0010: (toSolve + l + cL)*cR = cO. -/
def SCS.f11 (s : SCS) (l : List Term) (cL cR cO cS : Int) (idCS : Nat) : SCS :=
  let (s, lt) := s.split Term.sentinel l
  let (s, lt2) := s.multiply lt cR
  let cK := cL * cR - cO
  let (s, res) := s.newTermIdx (cS * cR) idCS
  let (s, kid) := s.coeffID cK
  s.addConstraint { L := res, R := lt2, K := kid }

/-- Case 0b0011: (toSolve + l + cL)*(r + cR) = cO (two gates through u). -/
def SCS.f12 (s : SCS) (l r : List Term) (cL cR cO cS : Int) (idCS : Nat) : SCS :=
  let (s, u) := s.newTerm 1
  let (s, lt) := s.split Term.sentinel l
  let (s, rt) := s.split Term.sentinel r
  let (s, cRLT) := s.multiply lt cR
  let (s, cRT) := s.multiply rt cL
  let cK := cL * cR - cO
  let (s, kid) := s.coeffID cK
  let s := s.addConstraint { L := cRLT, R := cRT, M0 := lt, M1 := rt, O := u, K := kid }
  let (s, res) := s.newTermIdx cS idCS
  let (s, cRes) := s.multiply res cR
  let (s, nu) := s.negate u
  s.addConstraint { R := cRes, M0 := res, M1 := rt, O := nu }

/-- Case 0b0100: (toSolve + cL)*cR = o + cO. -/
def SCS.f13 (s : SCS) (o : List Term) (cL cR cO cS : Int) (idCS : Nat) : SCS :=
  let (s, ot) := s.split Term.sentinel o
  let cK := cL * cR - cO
  let (s, res) := s.newTermIdx (cS * cR) idCS
  let (s, nt) := s.negate ot
  let (s, kid) := s.coeffID cK
  s.addConstraint { L := res, O := nt, K := kid }

/-- Case 0b0101: (toSolve + cL)*(r + cR) = o + cO. -/
def SCS.f14 (s : SCS) (r o : List Term) (cL cR cO cS : Int) (idCS : Nat) : SCS :=
  let (s, ot) := s.split Term.sentinel o
  let (s, res) := s.newTermIdx cS idCS
  let (s, rt) := s.split Term.sentinel r
  let cK := cL * cR - cO
  let (s, mres) := s.multiply res cR
  let (s, mrt) := s.multiply rt cL
  let (s, nt) := s.negate ot
  let (s, kid) := s.coeffID cK
  s.addConstraint { L := mres, R := mrt, M0 := res, M1 := rt, O := nt, K := kid }

/-- Case 0b0110: (toSolve + l + cL)*cR = o + cO. -/
def SCS.f15 (s : SCS) (l o : List Term) (cL cR cO cS : Int) (idCS : Nat) : SCS :=
  let (s, ot) := s.split Term.sentinel o
  let (s, lt) := s.split Term.sentinel l
  let cK := cL * cR - cO
  let (s, res) := s.newTermIdx (cS * cR) idCS
  let (s, mlt) := s.multiply lt cR
  let (s, nt) := s.negate ot
  let (s, kid) := s.coeffID cK
  s.addConstraint { L := res, R := mlt, O := nt, K := kid }

/-- Case 0b0111: (toSolve + l + cL)*(r + cR) = o + cO (three gates through
u and v). -/
def SCS.f16 (s : SCS) (l r o : List Term) (cL cR cO cS : Int) (idCS : Nat) : SCS :=
  let (s, u) := s.newTerm 1
  let (s, lt) := s.split Term.sentinel l
  let (s, rt) := s.split Term.sentinel r
  let (s, cRLT) := s.multiply lt cR
  let (s, cRT) := s.multiply rt cL
  let cK := cL * cR - cO
  let (s, kid) := s.coeffID cK
  let s := s.addConstraint { L := cRLT, R := cRT, M0 := lt, M1 := rt, O := u, K := kid }
  let (s, v) := s.newTerm 1
  let (s, ot) := s.split Term.sentinel o
  let s := s.addConstraint { L := u, R := ot, O := v }
  let (s, res) := s.newTermIdx cS idCS
  let (s, cRes) := s.multiply res cR
  s.addConstraint { R := cRes, M0 := res, M1 := rt, O := v }

/-- r1cToPlonkConstraintSingleOutput.  none models the Go panic inside
popInternalVariable when findUnsolvedVariable produced no usable target. -/
def SCS.r1cToPlonkConstraintSingleOutput (s : SCS) (r1c : R1C) : Option SCS :=
  let (lro0, idCS) := findUnsolvedVariable r1c s.solvedVariables
  let (l1, r1', lro) :=
    if lro0 = 1 then (r1c.R, r1c.L, (0 : Int)) else (r1c.L, r1c.R, lro0)
  let (l2, cL) := s.popConstantTerm l1
  let (r2, cR) := s.popConstantTerm r1'
  let (o2, cO) := s.popConstantTerm r1c.O
  match (if lro = 0 then popInternalVariable l2 idCS else popInternalVariable o2 idCS) with
  | none => none
  | some (le2, toSolve) =>
    let l3 := if lro = 0 then le2 else l2
    let o3 := if lro = 0 then o2 else le2
    let cS := s.coeffs.getD toSolve.coeffID 0
    let i := idCS.toNat
    let bits : Nat :=
      (if lro ≠ 0 then 8 else 0) + (if o3 ≠ [] then 4 else 0) +
      (if l3 ≠ [] then 2 else 0) + (if r2 ≠ [] then 1 else 0)
    let s' :=
      match bits with
      | 0 => s.f9 cL cR cO cS i
      | 1 => s.f10 r2 cL cR cO cS i
      | 2 => s.f11 l3 cL cR cO cS i
      | 3 => s.f12 l3 r2 cL cR cO cS i
      | 4 => s.f13 o3 cL cR cO cS i
      | 5 => s.f14 r2 o3 cL cR cO cS i
      | 6 => s.f15 l3 o3 cL cR cO cS i
      | 7 => s.f16 l3 r2 o3 cL cR cO cS i
      | 8 => s.f1 cL cR cO cS i
      | 9 => s.f2 r2 cL cR cO cS i
      | 10 => s.f3 l3 cL cR cO cS i
      | 11 => s.f4 l3 r2 cL cR cO cS i
      | 12 => s.f5 o3 cL cR cO cS i
      | 13 => s.f6 r2 o3 cL cR cO cS i
      | 14 => s.f7 l3 o3 cL cR cO cS i
      | _ => s.f8 l3 r2 o3 cL cR cO cS i
    some { s' with solvedVariables := s'.solvedVariables.set i true }

/-- The O-side reduction performed by r1cToPlonkConstraintBinary before
its per-bit loop: pop the constant of O, then either emit the trivial
gate for a constant O or split O and optionally fold the constant into a
fresh wire.  Returns the term playing accQi[0]. -/
def SCS.binPre (s : SCS) (r1c : R1C) : SCS × Term :=
  let (o, cO) := s.popConstantTerm r1c.O
  let (s, cOID) := s.coeffID cO
  if o = [] then
    let (s, ot) := s.newTerm 1
    let (s, nt) := s.negate ot
    (s.addConstraint { L := nt, K := cOID }, ot)
  else
    let (s, ot) := s.split Term.sentinel o
    if cOID ≠ 0 then
      let (s, ot2) := s.newTerm 1
      let (s, nt2) := s.negate ot2
      (s.addConstraint { L := ot, O := nt2, K := cOID }, ot2)
    else (s, ot)

/-- The per-bit loop of r1cToPlonkConstraintBinary.  Each iteration
allocates the remainder and quotient wires, looks for a term of the
remaining decomposition whose pool coefficient equals the accumulator
2^i (recording its mapping and removing it when found, silently doing
nothing otherwise), and emits the gate 2*q(i+1) + r(i) - q(i) = 0 tagged
BinaryDec.  Returns the final state and whatever is left of the
decomposition list. -/
def SCS.binLoop (s : SCS) (binDec : List Term) (qi : Term) (acc : Int) :
    Nat → SCS × List Term
  | 0 => (s, binDec)
  | n + 1 =>
    let (s, ri) := s.newTerm 1
    let (s, qi1) := s.newTerm 1
    let (s, binDec2) :=
      match binDec.findIdx? (fun t => s.coeffs.getD t.coeffID 0 == acc) with
      | some k =>
        let t := binDec.getD k default
        (({ s with
            mCStoCCS := s.mCStoCCS.set t.varID ri.varID,
            solvedVariables := s.solvedVariables.set t.varID true } : SCS),
          binDec.eraseIdx k)
      | none => (s, binDec)
    let (s, lterm) := s.multiply qi1 2
    let (s, oterm) := s.negate qi
    let s := s.addConstraint { L := lterm, R := ri, O := oterm, solver := .binaryDec }
    s.binLoop binDec2 qi1 (acc * 2) n

/-- r1cToPlonkConstraintBinary together with the decomposition terms left
over after the loop (the Go code computes the same list and drops it
without looking at it). -/
def SCS.binWithLeftover (s : SCS) (r1c : R1C) : SCS × List Term :=
  let (s1, ot) := s.binPre r1c
  s1.binLoop r1c.L ot 1 r1c.L.length

/-- r1cToPlonkConstraintBinary. -/
def SCS.r1cToPlonkConstraintBinary (s : SCS) (r1c : R1C) : SCS :=
  (s.binWithLeftover r1c).1

/-- r1cToSparseR1C: dispatch on the solver tag. -/
def SCS.r1cToSparseR1C (s : SCS) (r1c : R1C) : Option SCS :=
  if r1c.solver = .singleOutput then s.r1cToPlonkConstraintSingleOutput r1c
  else some (s.r1cToPlonkConstraintBinary r1c)

/-- splitR1C: lower an assertion through the eight empty/non-empty cases.
Seven cases record their gate with recordAssertion; the case with l, r
and o all non-empty calls addConstraint in the source. -/
def SCS.splitR1C (s : SCS) (r1c : R1C) : SCS :=
  let (l, cL) := s.popConstantTerm r1c.L
  let (r, cR) := s.popConstantTerm r1c.R
  let (o, cO) := s.popConstantTerm r1c.O
  if o = [] then
    if l = [] then
      if r = [] then
        let cK := cL * cR - cO
        let (s, kid) := s.coeffID cK
        s.recordAssertion { K := kid }
      else
        let (s, rt) := s.split Term.sentinel r
        let (s, crt) := s.multiply rt cL
        let cK := cL * cR - cO
        let (s, kid) := s.coeffID cK
        s.recordAssertion { R := crt, K := kid }
    else
      if r = [] then
        let (s, lt) := s.split Term.sentinel l
        let (s, clt) := s.multiply lt cR
        let cK := cL * cR - cO
        let (s, kid) := s.coeffID cK
        s.recordAssertion { L := clt, K := kid }
      else
        let (s, lt) := s.split Term.sentinel l
        let (s, rt) := s.split Term.sentinel r
        let (s, clt) := s.multiply lt cR
        let (s, crt) := s.multiply rt cL
        let cK := cL * cR - cO
        let (s, kid) := s.coeffID cK
        s.recordAssertion { L := clt, R := crt, M0 := lt, M1 := rt, K := kid }
  else
    if l = [] then
      if r = [] then
        let (s, ot) := s.split Term.sentinel o
        let cK := cL * cR - cO
        let (s, kid) := s.coeffID cK
        let (s, nt) := s.negate ot
        s.recordAssertion { K := kid, O := nt }
      else
        let (s, rt) := s.split Term.sentinel r
        let (s, ot) := s.split Term.sentinel o
        let (s, crt) := s.multiply rt cL
        let cK := cL * cR - cO
        let (s, kid) := s.coeffID cK
        let (s, nt) := s.negate ot
        s.recordAssertion { R := crt, K := kid, O := nt }
    else
      if r = [] then
        let (s, lt) := s.split Term.sentinel l
        let (s, ot) := s.split Term.sentinel o
        let (s, clt) := s.multiply lt cR
        let cK := cL * cR - cO
        let (s, kid) := s.coeffID cK
        let (s, nt) := s.negate ot
        s.recordAssertion { L := clt, K := kid, O := nt }
      else
        let (s, lt) := s.split Term.sentinel l
        let (s, rt) := s.split Term.sentinel r
        let (s, ot) := s.split Term.sentinel o
        let (s, crt) := s.multiply rt cL
        let (s, clt) := s.multiply lt cR
        let cK := cR * cL - cO
        let (s, kid) := s.coeffID cK
        let (s, nt) := s.negate ot
        s.addConstraint { L := clt, R := crt, M0 := lt, M1 := rt, K := kid, O := nt }

/-!  The toSparseR1CS driver: lowering loops, then the final renumbering. -/

/-- Errors of the pass, together with the two reachable Go panics.
errUnsolvable is the slice panic inside popInternalVariable;
errPanicLog is the explicit panic of the log renumbering loop.
errUnsetInput is ErrInputNotSet returned by offsetIDTerm. -/
inductive LowerError where
  | errUnsolvable
  | errUnsetInput
  | errPanicLog
deriving DecidableEq, Repr

/-- Modelled from the spec: the input ConstraintSystem as far as the pass
reads it (counters, constraint and assertion lists, the shared pool and
the log resolver terms).  nbPublicInput counts the ONE_WIRE. -/
structure CS where
  nbPublicInput : Nat
  nbSecretInput : Nat := 0
  nbInternalInput : Nat := 0
  constraints : List R1C := []
  assertions : List R1C := []
  coeffs : List Int
  logs : List (List Term) := []
deriving DecidableEq, Repr

/-- The lowering loops of toSparseR1CS: fold r1cToSparseR1C over the
constraints, then splitR1C over the assertions. -/
def lowerAll (cs : CS) : Except LowerError SCS :=
  let s0 : SCS :=
    { coeffs := cs.coeffs,
      mCStoCCS := List.replicate cs.nbInternalInput 0,
      solvedVariables := List.replicate cs.nbInternalInput false }
  match cs.constraints.foldlM
      (fun s c =>
        match s.r1cToSparseR1C c with
        | some s' => Except.ok s'
        | none => Except.error LowerError.errUnsolvable) s0 with
  | Except.error e => Except.error e
  | Except.ok s1 => Except.ok (cs.assertions.foldl (fun s c => s.splitR1C c) s1)

/-- offsetIDTerm: renumber one Term into the unified
public / secret / internal layout.  Zero terms are skipped; Unset
visibility on a non-zero term is the ErrInputNotSet failure.  Note the
Internal case uses the stored varID directly (no mCStoCCS lookup). -/
def offsetIDTerm (npub nsec : Nat) (t : Term) : Except LowerError Term :=
  if t = Term.sentinel then Except.ok t
  else
    match t.vis with
    | .public => Except.ok { t with varID := t.varID - 1 }
    | .secret => Except.ok { t with varID := t.varID + npub }
    | .internal => Except.ok { t with varID := t.varID + npub + nsec }
    | .unset => Except.error LowerError.errUnsetInput

/-- The L/M0 and R/M1 alignment performed at the start of offsetIDs:
whichever of the pair has coefficient index 0 is replaced by the other
member with its coefficient index cleared. -/
def ensureLM (c : SparseR1C) : SparseR1C :=
  let c :=
    if c.L.coeffID = 0 then
      if c.M0 ≠ Term.sentinel then { c with L := { c.M0 with coeffID := 0 } } else c
    else
      if c.M0.coeffID = 0 then { c with M0 := { c.L with coeffID := 0 } } else c
  if c.R.coeffID = 0 then
    if c.M1 ≠ Term.sentinel then { c with R := { c.M1 with coeffID := 0 } } else c
  else
    if c.M1.coeffID = 0 then { c with M1 := { c.R with coeffID := 0 } } else c

/-- offsetIDs: align L/M0, R/M1, then renumber the five slots in the
order L, R, O, M0, M1. -/
def offsetIDs (npub nsec : Nat) (c0 : SparseR1C) : Except LowerError SparseR1C := do
  let c := ensureLM c0
  let lt ← offsetIDTerm npub nsec c.L
  let rt ← offsetIDTerm npub nsec c.R
  let ot ← offsetIDTerm npub nsec c.O
  let m0 ← offsetIDTerm npub nsec c.M0
  let m1 ← offsetIDTerm npub nsec c.M1
  Except.ok { c with L := lt, R := rt, O := ot, M0 := m0, M1 := m1 }

/-- The per-term renumbering of the log loop.  Unlike offsetIDTerm it
maps Internal variables through mCStoCCS, and it panics (none) on Unset
visibility. -/
def logResolveTerm (npub nsec : Nat) (m : List Nat) (t : Term) : Option Int :=
  match t.vis with
  | .public => some ((t.varID : Int) - 1)
  | .secret => some ((t.varID : Int) + npub)
  | .internal => some ((m.getD t.varID 0 : Int) + nsec + npub)
  | .unset => none

/-- The compiled output as toSparseR1CS returns it (the curve dispatch
downstream of the pass is outside the claims). -/
structure SparseOut where
  nbPublic : Nat
  nbSecret : Nat
  nbInternal : Nat
  constraints : List SparseR1C
  assertions : List SparseR1C
  logs : List (List Int)
  coeffs : List Int
deriving DecidableEq, Repr

/-- toSparseR1CS: run the lowering loops, then renumber the constraints,
the assertions and the logs. -/
def toSparseR1CS (cs : CS) : Except LowerError SparseOut := do
  let s ← lowerAll cs
  let npub := cs.nbPublicInput - 1
  let nsec := cs.nbSecretInput
  let cons ← s.constraints.mapM (offsetIDs npub nsec)
  let asserts ← s.assertions.mapM (offsetIDs npub nsec)
  let logs ← cs.logs.mapM (fun l =>
    match l.mapM (logResolveTerm npub nsec s.mCStoCCS) with
    | some r => Except.ok r
    | none => Except.error LowerError.errPanicLog)
  Except.ok
    { nbPublic := npub, nbSecret := nsec, nbInternal := s.nbInternal,
      constraints := cons, assertions := asserts, logs := logs,
      coeffs := s.coeffs }

/-!  Numeric semantics of constraints and gates. -/

/-- Value of one gate slot: pool coefficient times the wire value. -/
def evalTerm (pool : List Int) (a : Nat → Int) (t : Term) : Int :=
  pool.getD t.coeffID 0 * a t.varID

/-- Value of a PLONK gate under a wire assignment:
qL a + qR b + qM0 qM1 a b + qO c + K. -/
def evalSparseR1C (pool : List Int) (a : Nat → Int) (g : SparseR1C) : Int :=
  evalTerm pool a g.L + evalTerm pool a g.R +
    pool.getD g.M0.coeffID 0 * pool.getD g.M1.coeffID 0 * a g.M0.varID * a g.M1.varID +
    evalTerm pool a g.O + pool.getD g.K 0

/-- Value of an input linear expression under an assignment indexed by
visibility and variable id. -/
def evalLinExp (pool : List Int) (a : Visibility → Nat → Int) (l : List Term) : Int :=
  l.foldl (fun acc t => acc + pool.getD t.coeffID 0 * a t.vis t.varID) 0

/-- A satisfying assignment of one input R1C: sum(L) * sum(R) = sum(O). -/
def satisfiesR1C (pool : List Int) (a : Visibility → Nat → Int) (c : R1C) : Prop :=
  evalLinExp pool a c.L * evalLinExp pool a c.R = evalLinExp pool a c.O

/-- Reference description of findUnsolvedVariable used to state its
corrected contract: the id reported alongside pos = -1 is the id of the
last Internal term the three scans examined (or -1 when they saw none). -/
def lastInternalId (ts : List Term) (d : Int) : Int :=
  ts.foldl (fun a t => if t.vis = .internal then (t.varID : Int) else a) d

/-- Reference description of the successful scan: the first Internal term
of the list that the bitset does not mark solved. -/
def firstUnsolved (solved : List Bool) (ts : List Term) : Option Int :=
  ts.findSome? (fun t =>
    if t.vis = .internal ∧ ¬ solved.getD t.varID false then some (t.varID : Int) else none)

/-- The corrected contract of findUnsolvedVariable, written from the
amended claim: first unsolved Internal term of L, then R, then O; when
none exists, pos is -1 and id is the last Internal id scanned. -/
def findUnsolvedSpec (r1c : R1C) (solved : List Bool) : Int × Int :=
  match firstUnsolved solved r1c.L with
  | some i => (0, i)
  | none =>
    match firstUnsolved solved r1c.R with
    | some i => (1, i)
    | none =>
      match firstUnsolved solved r1c.O with
      | some i => (2, i)
      | none => (-1, lastInternalId (r1c.O) (lastInternalId (r1c.R) (lastInternalId (r1c.L) (-1))))

/-- Number of gates of a list carrying the BinaryDec tag. -/
def countBinaryDec (l : List SparseR1C) : Nat :=
  (l.filter (fun g => g.solver == SolverTag.binaryDec)).length

end GnarkScs

namespace GnarkWitness

/-!
Embedding of internal/backend/bw6-672/witness/witness.go: WriteTo and
LimitReadFrom.  The fr.Element codec lives in the external gnark-crypto
module; per the specification it is the canonical fixed-width big-endian
byte encoding of the element, here modelled over element values as
natural numbers and streams as lists of byte values.  fr.Limbs is 5 for
the bw6-672 scalar field (a 315-bit prime, five 64-bit limbs). -/

def frLimbs : Nat := 5

/-- Bytes of one encoded field element. -/
def elemSize : Nat := frLimbs * 8

/-- Fixed-width big-endian byte encoding (most significant byte first). -/
def toBytesBE : Nat → Nat → List Nat
  | 0, _ => []
  | w + 1, n => toBytesBE w (n / 256) ++ [n % 256]

/-- Big-endian byte decoding. -/
def fromBytesBE (l : List Nat) : Nat :=
  l.foldl (fun a b => a * 256 + b) 0

/-- Witness.WriteTo: the 4-byte big-endian uint32 length prefix followed
by the canonical encodings of the elements in order. -/
def writeTo (w : List Nat) : List Nat :=
  toBytesBE 4 (w.length % 2 ^ 32) ++ (w.map (toBytesBE elemSize)).flatten

/-- Result of LimitReadFrom: bytes consumed plus either the witness or
the error message. -/
inductive ReadRes where
  | ok (consumed : Nat) (w : List Nat)
  | err (consumed : Nat) (msg : String)
deriving DecidableEq, Repr

/-- The element-decoding loop: read n canonical encodings from the
stream, failing when fewer than elemSize bytes remain (partial reads of
the failing element are not tracked; no claim depends on them). -/
def readElems : Nat → List Nat → Option (List Nat × Nat)
  | 0, _ => some ([], 0)
  | n + 1, stream =>
    if stream.length < elemSize then none
    else
      match readElems n (stream.drop elemSize) with
      | some (es, k) => some (fromBytesBE (stream.take elemSize) :: es, k + elemSize)
      | none => none

/-- Witness.LimitReadFrom: read the 4-byte prefix, reject the stream
with the invalid-witness-size error when it differs from expectedSize,
otherwise decode expectedSize elements from at most
expectedSize * fr.Limbs * 8 further bytes. -/
def limitReadFrom (stream : List Nat) (expectedSize : Nat) : ReadRes :=
  if stream.length < 4 then ReadRes.err stream.length "unexpected EOF"
  else
    let sliceLen := fromBytesBE (stream.take 4)
    if sliceLen ≠ expectedSize then ReadRes.err 4 "invalid witness size"
    else
      let body := (stream.drop 4).take (expectedSize * frLimbs * 8)
      match readElems sliceLen body with
      | some (es, k) => ReadRes.ok (k + 4) es
      | none => ReadRes.err 4 "unexpected EOF"

end GnarkWitness

namespace GnarkScs

/-!  Concrete inputs and outputs used by the claim theorems. -/

/-- C1 input: one constraint (2 * ONE) * (3 * ONE) = x + y with x the
internal variable 0 and y the public variable 1, and one assertion
x * ONE = 5 * ONE.  The pool holds [0, 1, -1, 2, 3, 5]. -/
def exC1 : CS :=
  { nbPublicInput := 2, nbInternalInput := 1,
    coeffs := [0, 1, -1, 2, 3, 5],
    constraints := [{ L := [⟨3, 0, .public⟩], R := [⟨4, 0, .public⟩],
                      O := [⟨1, 0, .internal⟩, ⟨1, 1, .public⟩] }],
    assertions := [{ L := [⟨1, 0, .internal⟩], R := [⟨1, 0, .public⟩],
                     O := [⟨5, 0, .public⟩] }] }

/-- The gate the f5 case emits for exC1 after renumbering:
1*y - 1*w0 - 6 = 0 over the output wires [y | w0]. -/
def c1G1 : SparseR1C :=
  { L := ⟨1, 0, .public⟩, M0 := ⟨0, 0, .public⟩, O := ⟨2, 1, .internal⟩, K := 6 }

/-- The assertion gate for exC1 after renumbering: 1*w0 - 5 = 0. -/
def c1G2 : SparseR1C :=
  { L := ⟨1, 1, .internal⟩, M0 := ⟨0, 1, .internal⟩, K := 7 }

/-- The full output of the pass on exC1. -/
def c1out : SparseOut :=
  { nbPublic := 1, nbSecret := 0, nbInternal := 1,
    constraints := [c1G1], assertions := [c1G2], logs := [],
    coeffs := [0, 1, -1, 2, 3, 5, -6, -5] }

/-- The satisfying assignment of the input system of exC1:
ONE = 1, y = 1, x = 5. -/
def c1assign : Visibility → Nat → Int := fun vis i =>
  match vis, i with
  | .public, 0 => 1
  | .public, 1 => 1
  | .internal, 0 => 5
  | _, _ => 0

/-- Extension of that assignment to the output wire space [y | w0]:
y keeps its value 1, the fresh wire w0 takes an arbitrary value v. -/
def c1wires (v : Int) : Nat → Int := fun i => if i = 0 then 1 else v

/-- C2 input: constraint 2*3 = y solved by f1 (y is internal 1, mapped to
output wire 0), then constraint y * ONE = x solved by f3 (x is internal
0, mapped to output wire 1); the resulting mCStoCCS = [1, 0] is not the
identity. -/
def exC2 : CS :=
  { nbPublicInput := 1, nbInternalInput := 2,
    coeffs := [0, 1, -1, 2, 3],
    constraints := [{ L := [⟨3, 0, .public⟩], R := [⟨4, 0, .public⟩],
                      O := [⟨1, 1, .internal⟩] },
                    { L := [⟨1, 1, .internal⟩], R := [⟨1, 0, .public⟩],
                      O := [⟨1, 0, .internal⟩] }] }

/-- C3 counterexample state: pool [0,1,-1,2], two unsolved internal
variables. -/
def s0c3 : SCS :=
  { coeffs := [0, 1, -1, 2], mCStoCCS := [0, 0], solvedVariables := [false, false] }

/-- C3 input: a BinaryDec constraint whose L holds two terms both with
coefficient 1 (so bit position 1 has no term with coefficient 2), with
constant O = 2 * ONE. -/
def r1cC3 : R1C :=
  { L := [⟨1, 0, .internal⟩, ⟨1, 1, .internal⟩], O := [⟨3, 0, .public⟩],
    solver := .binaryDec }

/-- C4 state: empty internal space. -/
def s0c4 : SCS := { coeffs := [0, 1, -1, 2] }

/-- C4 input: a SingleOutput constraint with no Internal variable at all
(L = ONE, R and O empty). -/
def r1cC4 : R1C := { L := [⟨1, 0, .public⟩] }

/-- C5 state: one unsolved internal variable. -/
def s0c5 : SCS := { coeffs := [0, 1, -1, 2], mCStoCCS := [0], solvedVariables := [false] }

/-- C5 input: a BinaryDec constraint with constant O = 2 * ONE, so the
O-side reduction emits a gate before the per-bit loop. -/
def r1cC5 : R1C :=
  { L := [⟨1, 0, .internal⟩], O := [⟨3, 0, .public⟩], solver := .binaryDec }

/-- C6 state. -/
def s0c6 : SCS := { coeffs := [0, 1, -1, 2] }

/-- C6 input: an assertion x * y = z on public variables 1, 2, 3; l, r
and o are all non-empty, the eighth case of splitR1C. -/
def r1cC6 : R1C :=
  { L := [⟨1, 1, .public⟩], R := [⟨1, 2, .public⟩], O := [⟨1, 3, .public⟩] }

/-- C7 input: L holds the single Internal variable 0, already solved. -/
def r1cC7 : R1C := { L := [⟨1, 0, .internal⟩] }

/-- C8 state. -/
def s0c8 : SCS := { coeffs := [0, 1, -1, 2] }

/-- C8 input: the assertion (1 * x_pub1) * (2 * ONE) = 0, landing in the
splitR1C case with only l non-empty; its gate has a non-sentinel L and a
sentinel M0. -/
def r1cC8 : R1C := { L := [⟨1, 1, .public⟩], R := [⟨3, 0, .public⟩] }

/-- The builder state after the two lowering loops on exC2.  The second
gate keeps the ccs index 1 in its O slot while mCStoCCS maps the original
variable 0 to ccs wire 1 and the original variable 1 to ccs wire 0. -/
def c2st : SCS :=
  { coeffs := [0, 1, -1, 2, 3, 6], nbInternal := 2,
    constraints := [{ O := ⟨2, 0, .internal⟩, K := 5 },
                    { L := ⟨1, 0, .internal⟩, O := ⟨2, 1, .internal⟩, K := 0 }],
    assertions := [], mCStoCCS := [1, 0], solvedVariables := [true, true] }

/-- The final output of the pass on exC2 (nbPublic = 0, nbSecret = 0, so
the renumbering leaves internal ids unchanged). -/
def c2out : SparseOut :=
  { nbPublic := 0, nbSecret := 0, nbInternal := 2,
    constraints := [{ O := ⟨2, 0, .internal⟩, K := 5 },
                    { L := ⟨1, 0, .internal⟩, M0 := ⟨0, 0, .internal⟩,
                      O := ⟨2, 1, .internal⟩, K := 0 }],
    assertions := [], logs := [], coeffs := [0, 1, -1, 2, 3, 6] }

/-- The single gate splitR1C emits for r1cC6, which the source hands to
addConstraint rather than recordAssertion. -/
def c6gate : SparseR1C :=
  { L := ⟨0, 1, .public⟩, R := ⟨0, 2, .public⟩, M0 := ⟨1, 1, .public⟩,
    M1 := ⟨1, 2, .public⟩, O := ⟨2, 3, .public⟩, K := 0 }

/-- The assertion gate recorded for r1cC8: L is the public variable 1
with coefficient 2, M0 is left as the sentinel. -/
def c8gate : SparseR1C := { L := ⟨3, 1, .public⟩, K := 0 }

/-- Gate for the C8 witness: sentinel L with a non-sentinel M0. -/
def c8w : SparseR1C := { M0 := ⟨1, 5, .internal⟩ }

/-- Input state for the C5 witness. -/
def c5wS : SCS := { coeffs := [0, 1, -1, 2], mCStoCCS := [0], solvedVariables := [false] }

/-- Constraint for the C5 witness: (1 * ONE) * (1 * ONE) = x_internal0,
lowered by the f1 case into a single gate. -/
def c5wR : R1C := { L := [⟨1, 0, .public⟩], R := [⟨1, 0, .public⟩], O := [⟨1, 0, .internal⟩] }

/-- The state after lowering c5wR from c5wS. -/
def c5wOut : SCS :=
  { coeffs := [0, 1, -1, 2], nbInternal := 1,
    constraints := [{ O := ⟨2, 0, .internal⟩, K := 1 }],
    assertions := [], mCStoCCS := [0], solvedVariables := [true] }

/-- State for the C10 witness. -/
def c10s : SCS := { coeffs := [0, 1, -1, 2] }

/-- Term for the C10 witness: 2 * internal variable 3. -/
def c10t : Term := ⟨3, 3, .internal⟩

instance instDecEqExcept {e a : Type} [DecidableEq e] [DecidableEq a] :
    DecidableEq (Except e a) := fun x y =>
  match x, y with
  | .ok u, .ok v =>
    if h : u = v then isTrue (by rw [h]) else isFalse (by simp [h])
  | .error u, .error v =>
    if h : u = v then isTrue (by rw [h]) else isFalse (by simp [h])
  | .ok _, .error _ => isFalse (by simp)
  | .error _, .ok _ => isFalse (by simp)

instance : Inhabited R1C := ⟨{}⟩

instance (pool : List Int) (a : Visibility → Nat → Int) (c : R1C) :
    Decidable (satisfiesR1C pool a c) :=
  inferInstanceAs (Decidable (_ = _))

/-!  Theorems settling the claims, with their supporting lemmas. -/

theorem poolIndex_getD {x : Int} :
    ∀ {l : List Int} {i : Nat}, poolIndex x l = some i → l.getD i 0 = x := by
  intro l
  induction l with
  | nil => intro i h; simp [poolIndex] at h
  | cons c rest ih =>
    intro i h
    by_cases hc : c = x
    · simp [poolIndex, hc] at h
      subst h
      simp [hc]
    · simp [poolIndex, hc] at h
      obtain ⟨j, hj, rfl⟩ := h
      simpa [List.getD] using ih hj

/-- The value interned by coeffID is found in the resulting pool at the
returned index. -/
theorem coeffID_getD (s : SCS) (x : Int) :
    ((s.coeffID x).1).coeffs.getD (s.coeffID x).2 0 = x := by
  unfold SCS.coeffID
  cases h : poolIndex x s.coeffs with
  | some i => simpa using poolIndex_getD h
  | none =>
    simp only []
    rw [List.getD_append_right _ _ _ _ (Nat.le_refl _)]
    simp

/-- coeffID touches only the pool. -/
theorem coeffID_state (s : SCS) (x : Int) :
    ((s.coeffID x).1).constraints = s.constraints ∧
    ((s.coeffID x).1).assertions = s.assertions ∧
    ((s.coeffID x).1).nbInternal = s.nbInternal ∧
    ((s.coeffID x).1).mCStoCCS = s.mCStoCCS ∧
    ((s.coeffID x).1).solvedVariables = s.solvedVariables := by
  unfold SCS.coeffID
  cases poolIndex x s.coeffs <;> exact ⟨rfl, rfl, rfl, rfl, rfl⟩

/-- Claim C1: the spec asserts that a satisfying assignment of the input
system, extended to the freshly allocated internal wires, numerically
satisfies every gate of the renumbered output.  This fails on exC1: the
assignment ONE = 1, y = 1, x = 5 satisfies the input constraint
(2*1)*(3*1) = x + y and the input assertion x*1 = 5, yet over the output
wires [y at 0 | w0 at 1] (w0 is the only fresh internal wire) the f5 gate
and the renumbered assertion gate sum to the constant -10 whatever value
v is given to w0, so no extension of the assignment satisfies both
output gates.  The f5 case body negates the gate constant and keeps the
collapsed O part positive, which flips the sign of the solved wire. -/
theorem c1_gate_identity_violated :
    satisfiesR1C exC1.coeffs c1assign (exC1.constraints.getD 0 default) ∧
    satisfiesR1C exC1.coeffs c1assign (exC1.assertions.getD 0 default) ∧
    toSparseR1CS exC1 = Except.ok c1out ∧
    ∀ v : Int,
      evalSparseR1C c1out.coeffs (c1wires v) (c1out.constraints.getD 0 default) +
        evalSparseR1C c1out.coeffs (c1wires v) (c1out.assertions.getD 0 default) = -10 := by
  refine ⟨by decide, by decide, by decide, ?_⟩
  intro v
  simp [c1out, c1G1, c1G2, evalSparseR1C, evalTerm, c1wires, Term.sentinel, List.getD]
  ring

/-- Claim C2 counterexample: the claim states that the final renumbering
gives an Internal term the new id CSToCCS[varID] + NbPublic + NbSecret.
On exC2 the second gate stores the ccs index 1 in its O slot while
mCStoCCS sends 1 to 0; the pass keeps varID + NbPublic + NbSecret = 1,
but the formula of the claim would give mCStoCCS[1] + 0 + 0 = 0. -/
theorem c2_internal_renumber_cex :
    lowerAll exC2 = Except.ok c2st ∧
    c2st.mCStoCCS = [1, 0] ∧
    (c2st.constraints.getD 1 default).O = ⟨2, 1, Visibility.internal⟩ ∧
    toSparseR1CS exC2 = Except.ok c2out ∧
    (c2out.constraints.getD 1 default).O.varID = 1 ∧
    decide ((c2out.constraints.getD 1 default).O.varID
      = c2st.mCStoCCS.getD 1 0 + c2out.nbPublic + c2out.nbSecret) = false := by
  exact ⟨by decide, by decide, by decide, by decide, by decide, by decide⟩

/-- Claim C3 counterexample: on the malformed decomposition r1cC3 (two
terms of coefficient 1, no term of coefficient 2) a term of L is left
over after the per-bit loop, yet the lowering completes with three
ordinary gates, leaving the second variable unsolved, and no error of any
kind is produced (the pass has no error channel at all). -/
theorem c3_completes_on_malformed :
    (s0c3.binWithLeftover r1cC3).2 = [⟨1, 1, Visibility.internal⟩] ∧
    decide ((s0c3.binWithLeftover r1cC3).2 = []) = false ∧
    (s0c3.binWithLeftover r1cC3).1.constraints.length = 3 ∧
    (s0c3.binWithLeftover r1cC3).1.solvedVariables = [true, false] ∧
    s0c3.r1cToSparseR1C r1cC3 = some (s0c3.binWithLeftover r1cC3).1 := by
  exact ⟨by decide, by decide, by decide, by decide, by decide⟩

/-- Claim C4 counterexample: on the SingleOutput constraint r1cC4, whose
expressions hold no Internal variable, findUnsolvedVariable reports no
target and the lowering hits the slice panic inside popInternalVariable
(modelled as none); no UnsolvableConstraint error is surfaced. -/
theorem c4_panics_without_error :
    findUnsolvedVariable r1cC4 s0c4.solvedVariables = (-1, -1) ∧
    s0c4.r1cToPlonkConstraintSingleOutput r1cC4 = none ∧
    s0c4.r1cToSparseR1C r1cC4 = none := by
  exact ⟨by decide, by decide, by decide⟩

/-- Claim C5 counterexample: the first gate r1cToPlonkConstraintBinary
emits for r1cC5 is the O-side reduction gate -w + 2 = 0, and it carries
the default SingleOutput tag, not BinaryDec as the claim states. -/
theorem c5_oreduction_tag_cex :
    (s0c5.r1cToPlonkConstraintBinary r1cC5).constraints.getD 0 default
      = ({ L := ⟨2, 0, .internal⟩, K := 3 } : SparseR1C) ∧
    ((s0c5.r1cToPlonkConstraintBinary r1cC5).constraints.getD 0 default).solver
      = SolverTag.singleOutput ∧
    decide (((s0c5.r1cToPlonkConstraintBinary r1cC5).constraints.getD 0 default).solver
      = SolverTag.binaryDec) = false := by
  exact ⟨by decide, by decide, by decide⟩

/-- Claim C6: for the assertion r1cC6, whose l, r and o parts are all
non-empty, splitR1C leaves the Assertions sequence empty and appends its
single resulting gate to Constraints through addConstraint, contradicting
the claim that every one of the eight cases records its gate in
Assertions. -/
theorem c6_assertion_misrecorded :
    (s0c6.splitR1C r1cC6).assertions = [] ∧
    (s0c6.splitR1C r1cC6).constraints = [c6gate] ∧
    c6gate.O = ⟨2, 3, Visibility.public⟩ := by
  exact ⟨by decide, by decide, by decide⟩

/-- Claim C7 counterexample: on an R1C whose only Internal term is
already solved, findUnsolvedVariable returns (-1, 0) (the id of the last
Internal term scanned), not the pair (-1, -1) the claim states. -/
theorem c7_returns_stale_id_cex :
    findUnsolvedVariable r1cC7 [true] = (-1, 0) ∧
    decide (findUnsolvedVariable r1cC7 [true] = (-1, -1)) = false := by
  exact ⟨by decide, by decide⟩

/-- Claim C8 counterexample: the assertion gate recorded for r1cC8 has a
non-sentinel L with variable id 1 while its sentinel M0 keeps variable
id 0: recordAssertion appends the gate as is, without the sentinel
variable-id fixup the claim ascribes to every appended SparseR1C. -/
theorem c8_assertion_no_fixup_cex :
    (s0c8.splitR1C r1cC8).assertions = [c8gate] ∧
    c8gate.M0 = Term.sentinel ∧
    c8gate.L.varID = 1 ∧
    c8gate.M0.varID = 0 ∧
    decide (c8gate.M0.varID = c8gate.L.varID) = false := by
  exact ⟨by decide, by decide, by decide, by decide, by decide⟩

/-- scanLE computes the first unsolved Internal term of the list,
carrying as second component the id of the last Internal term scanned. -/
theorem scanLE_spec (solved : List Bool) :
    ∀ (ts : List Term) (d : Int),
      scanLE solved ts d =
        (match firstUnsolved solved ts with
         | some i => (some i, i)
         | none => (none, lastInternalId ts d)) := by
  intro ts
  induction ts with
  | nil => intro d; simp [scanLE, firstUnsolved, lastInternalId]
  | cons t rest ih =>
    intro d
    by_cases hv : t.vis = Visibility.internal
    · by_cases hs : (solved[t.varID]?.getD false) = true
      · have h1 : scanLE solved (t :: rest) d = scanLE solved rest (t.varID : Int) := by
          simp [scanLE, hv, hs]
        have h2 : firstUnsolved solved (t :: rest) = firstUnsolved solved rest := by
          simp [firstUnsolved, List.findSome?_cons, hv, hs]
        have h3 : lastInternalId (t :: rest) d = lastInternalId rest (t.varID : Int) := by
          simp [lastInternalId, hv]
        rw [h1, h2, h3, ih]
      · have h1 : scanLE solved (t :: rest) d = (some (t.varID : Int), (t.varID : Int)) := by
          simp [scanLE, hv, hs]
        have h2 : firstUnsolved solved (t :: rest) = some (t.varID : Int) := by
          simp [firstUnsolved, List.findSome?_cons, hv, hs]
        rw [h1, h2]
    · have h1 : scanLE solved (t :: rest) d = scanLE solved rest d := by
        simp [scanLE, hv]
      have h2 : firstUnsolved solved (t :: rest) = firstUnsolved solved rest := by
        simp [firstUnsolved, List.findSome?_cons, hv]
      have h3 : lastInternalId (t :: rest) d = lastInternalId rest d := by
        simp [lastInternalId, hv]
      rw [h1, h2, h3, ih]

/-- Claim C7 (amended): findUnsolvedVariable returns the position and id
of the first unsolved Internal term scanning L, then R, then O; when no
such term exists it returns pos = -1 paired with the id of the last
Internal term the scans examined, -1 only when L, R and O hold no
Internal term at all.  Stated as equality with the reference function
findUnsolvedSpec written from that description. -/
theorem c7_find_unsolved_amended (r1c : R1C) (solved : List Bool) :
    findUnsolvedVariable r1c solved = findUnsolvedSpec r1c solved := by
  unfold findUnsolvedVariable findUnsolvedSpec
  rw [scanLE_spec]
  cases hL : firstUnsolved solved r1c.L with
  | some i => rfl
  | none =>
    simp only []
    rw [scanLE_spec]
    cases hR : firstUnsolved solved r1c.R with
    | some i => rfl
    | none =>
      simp only []
      rw [scanLE_spec]
      cases hO : firstUnsolved solved r1c.O with
      | some i => rfl
      | none => rfl

/-- Claim C2 (amended): the renumbering of gate terms maps a sentinel to
itself, a Public term to varID - 1, a Secret term to varID + npub, an
Internal term to varID + npub + nsec without consulting mCStoCCS, and
fails with the UnsetInput error on a non-sentinel Unset term; the log
renumbering maps Internal ids through mCStoCCS and panics on Unset. -/
theorem c2_renumber_amended (npub nsec : Nat) (m : List Nat) (t : Term)
    (h : t ≠ Term.sentinel) :
    offsetIDTerm npub nsec Term.sentinel = Except.ok Term.sentinel ∧
    (t.vis = .public →
      offsetIDTerm npub nsec t = Except.ok { t with varID := t.varID - 1 }) ∧
    (t.vis = .secret →
      offsetIDTerm npub nsec t = Except.ok { t with varID := t.varID + npub }) ∧
    (t.vis = .internal →
      offsetIDTerm npub nsec t = Except.ok { t with varID := t.varID + npub + nsec }) ∧
    (t.vis = .unset →
      offsetIDTerm npub nsec t = Except.error LowerError.errUnsetInput) ∧
    (t.vis = .public → logResolveTerm npub nsec m t = some ((t.varID : Int) - 1)) ∧
    (t.vis = .secret → logResolveTerm npub nsec m t = some ((t.varID : Int) + npub)) ∧
    (t.vis = .internal →
      logResolveTerm npub nsec m t = some ((m.getD t.varID 0 : Int) + nsec + npub)) ∧
    (t.vis = .unset → logResolveTerm npub nsec m t = none) := by
  refine ⟨by simp [offsetIDTerm], ?_, ?_, ?_, ?_, ?_, ?_, ?_, ?_⟩ <;>
    intro hv <;> simp [offsetIDTerm, logResolveTerm, hv, h]

/-- Witness for c2_renumber_amended at an Internal term with varID 4 over
the map [7, 7, 7, 7, 9] with npub = 2, nsec = 3. -/
theorem c2_renumber_amended_witness :
    (⟨1, 4, .internal⟩ : Term) ≠ Term.sentinel ∧
    ((⟨1, 4, .internal⟩ : Term).vis = .internal →
      offsetIDTerm 2 3 ⟨1, 4, .internal⟩ = Except.ok ⟨1, 4 + 2 + 3, .internal⟩) ∧
    ((⟨1, 4, .internal⟩ : Term).vis = .internal →
      logResolveTerm 2 3 [7, 7, 7, 7, 9] ⟨1, 4, .internal⟩
        = some ((([7, 7, 7, 7, 9] : List Nat).getD 4 0 : Int) + 3 + 2)) := by
  refine ⟨by decide, ?_, ?_⟩
  · exact (c2_renumber_amended 2 3 [7, 7, 7, 7, 9] ⟨1, 4, .internal⟩ (by decide)).2.2.2.1
  · exact
      (c2_renumber_amended 2 3 [7, 7, 7, 7, 9] ⟨1, 4, .internal⟩ (by decide)).2.2.2.2.2.2.2.1

/-- Terms of the expression returned by popConstantTerm all come from
the input expression. -/
theorem popConstAux_mem (pool : List Int) :
    ∀ {l l' : List Term} {c : Int}, popConstAux pool l = some (l', c) →
      ∀ x ∈ l', x ∈ l := by
  intro l
  induction l with
  | nil => intro l' c h; simp [popConstAux] at h
  | cons t rest ih =>
    intro l' c h
    by_cases ht : t.varID = 0 ∧ t.vis = Visibility.public
    · simp [popConstAux, ht] at h
      intro x hx
      rw [← h.1] at hx
      exact List.mem_cons_of_mem t hx
    · simp [popConstAux, ht] at h
      cases hrec : popConstAux pool rest with
      | none => rw [hrec] at h; simp at h
      | some p =>
        rw [hrec] at h
        obtain ⟨rest', c'⟩ := p
        simp at h
        obtain ⟨h1, h2⟩ := h
        intro x hx
        rw [← h1] at hx
        rcases List.mem_cons.mp hx with hx | hx
        · exact hx ▸ List.mem_cons_self t rest
        · exact List.mem_cons_of_mem t (ih hrec x hx)

theorem popConstantTerm_mem (s : SCS) (l : List Term) :
    ∀ x ∈ (s.popConstantTerm l).1, x ∈ l := by
  unfold SCS.popConstantTerm
  cases h : popConstAux s.coeffs l with
  | none => simp
  | some p =>
    obtain ⟨l', c⟩ := p
    simpa using popConstAux_mem s.coeffs h

/-- On a list without Internal terms, popInternalVariable always hits the
out-of-range panic (the copy index overruns the shortened array, or the
allocation length is negative). -/
theorem popInternalVariable_none (l : List Term) (i : Int)
    (h : ∀ t ∈ l, t.vis ≠ Visibility.internal) :
    popInternalVariable l i = none := by
  unfold popInternalVariable
  by_cases hl : l.length = 0
  · simp [hl]
  · have hfil : l.filter (fun v => ¬(v.vis = Visibility.internal ∧ (v.varID : Int) = i)) = l := by
      apply List.filter_eq_self.mpr
      intro a ha
      simp [h a ha]
    simp only [hl, if_false, hfil]
    have : l.length - 1 < l.length := Nat.sub_lt (Nat.pos_of_ne_zero hl) Nat.one_pos
    simp [this]

/-- Claim C4 (amended): when findUnsolvedVariable reports no target
(pos = -1) and the O expression holds no Internal term, the single-output
lowering hits the popInternalVariable panic, modelled as none; no
UnsolvableConstraint error is produced anywhere. -/
theorem c4_no_internal_in_o_panics (s : SCS) (r1c : R1C) (i : Int)
    (hf : findUnsolvedVariable r1c s.solvedVariables = (-1, i))
    (ho : ∀ t ∈ r1c.O, t.vis ≠ Visibility.internal) :
    s.r1cToPlonkConstraintSingleOutput r1c = none := by
  have hpop : popInternalVariable ((s.popConstantTerm r1c.O).1) i = none :=
    popInternalVariable_none _ _ (fun t ht => ho t (popConstantTerm_mem s r1c.O t ht))
  unfold SCS.r1cToPlonkConstraintSingleOutput
  rw [hf]
  norm_num
  rw [hpop]

/-- Witness for c4_no_internal_in_o_panics at the concrete constraint
r1cC4 with empty O. -/
theorem c4_no_internal_in_o_panics_witness :
    findUnsolvedVariable r1cC4 s0c4.solvedVariables = (-1, -1) ∧
    s0c4.r1cToPlonkConstraintSingleOutput r1cC4 = none :=
  ⟨by decide, c4_no_internal_in_o_panics s0c4 r1cC4 (-1) (by decide) (by simp [r1cC4])⟩

/-- Claim C8 (amended): gates stored through addConstraint satisfy the
sentinel variable-id alignment (L from M0, R from M1 and conversely),
while recordAssertion stores its gate unchanged. -/
theorem c8_add_constraint_fixup (s : SCS) (c : SparseR1C) :
    (s.recordAssertion c).assertions = s.assertions ++ [c] ∧
    (s.addConstraint c).constraints = s.constraints ++ [fixupGate c] ∧
    (c.L = Term.sentinel → (fixupGate c).L.varID = (fixupGate c).M0.varID) ∧
    (c.R = Term.sentinel → (fixupGate c).R.varID = (fixupGate c).M1.varID) ∧
    (c.M0 = Term.sentinel → (fixupGate c).M0.varID = (fixupGate c).L.varID) ∧
    (c.M1 = Term.sentinel → (fixupGate c).M1.varID = (fixupGate c).R.varID) := by
  obtain ⟨tL, tR, tM0, tM1, tO, tK, tsol⟩ := c
  by_cases hL : tL = Term.sentinel <;>
    by_cases hR : tR = Term.sentinel <;>
    by_cases hM0 : tM0 = Term.sentinel <;>
    by_cases hM1 : tM1 = Term.sentinel <;>
    refine ⟨rfl, rfl, ?_, ?_, ?_, ?_⟩ <;>
    intro h <;>
    simp [fixupGate, hL, hR, hM0, hM1, Term.sentinel] <;>
    simp_all [Term.sentinel]

/-- Witness for c8_add_constraint_fixup at the gate c8w whose L slot is
the sentinel and whose M0 holds variable 5. -/
theorem c8_add_constraint_fixup_witness :
    c8w.L = Term.sentinel ∧
    (fixupGate c8w).L.varID = (fixupGate c8w).M0.varID ∧
    (s0c8.addConstraint c8w).constraints = s0c8.constraints ++ [fixupGate c8w] := by
  refine ⟨by decide, ?_, ?_⟩
  · exact (c8_add_constraint_fixup s0c8 c8w).2.2.1 (by decide)
  · exact (c8_add_constraint_fixup s0c8 c8w).2.1

/-- Claim C10: negate leaves the zero sentinel unchanged, and on every
non-sentinel term keeps the variable id and visibility while the
coefficient becomes the pool-interned negation of the original one. -/
theorem c10_negate_spec (s : SCS) (t : Term) (h : t ≠ Term.sentinel) :
    s.negate Term.sentinel = (s, Term.sentinel) ∧
    ((s.negate t).2).varID = t.varID ∧
    ((s.negate t).2).vis = t.vis ∧
    ((s.negate t).1).coeffs.getD ((s.negate t).2).coeffID 0
      = -(s.coeffs.getD t.coeffID 0) := by
  refine ⟨by simp [SCS.negate], ?_, ?_, ?_⟩
  · simp [SCS.negate, if_neg h]
  · simp [SCS.negate, if_neg h]
  · simp only [SCS.negate, if_neg h]
    exact coeffID_getD s (-(s.coeffs.getD t.coeffID 0))

/-- Witness for c10_negate_spec at the concrete term 2 * x_internal3 over
the pool [0, 1, -1, 2]: the negated term keeps variable 3 and Internal
visibility and its interned coefficient is -2. -/
theorem c10_negate_spec_witness :
    c10t ≠ Term.sentinel ∧
    (c10s.negate Term.sentinel = (c10s, Term.sentinel) ∧
      ((c10s.negate c10t).2).varID = c10t.varID ∧
      ((c10s.negate c10t).2).vis = c10t.vis ∧
      ((c10s.negate c10t).1).coeffs.getD ((c10s.negate c10t).2).coeffID 0
        = -(c10s.coeffs.getD c10t.coeffID 0)) := by
  exact ⟨by decide, c10_negate_spec c10s c10t (by decide)⟩

/-!  State-preservation lemmas used by the gate-count and solver-tag
theorems. -/

@[simp] theorem coeffID_constraints (s : SCS) (x : Int) :
    ((s.coeffID x).1).constraints = s.constraints := (coeffID_state s x).1

@[simp] theorem coeffID_assertions (s : SCS) (x : Int) :
    ((s.coeffID x).1).assertions = s.assertions := (coeffID_state s x).2.1

@[simp] theorem newTerm_constraints (s : SCS) (c : Int) :
    ((s.newTerm c).1).constraints = s.constraints := by
  unfold SCS.newTerm
  exact (coeffID_state s c).1

@[simp] theorem newTerm_assertions (s : SCS) (c : Int) :
    ((s.newTerm c).1).assertions = s.assertions := by
  unfold SCS.newTerm
  exact (coeffID_state s c).2.1

@[simp] theorem newTermIdx_constraints (s : SCS) (c : Int) (i : Nat) :
    ((s.newTermIdx c i).1).constraints = s.constraints := by
  unfold SCS.newTermIdx
  exact newTerm_constraints s c

@[simp] theorem newTermIdx_assertions (s : SCS) (c : Int) (i : Nat) :
    ((s.newTermIdx c i).1).assertions = s.assertions := by
  unfold SCS.newTermIdx
  exact newTerm_assertions s c

@[simp] theorem negate_constraints (s : SCS) (t : Term) :
    ((s.negate t).1).constraints = s.constraints := by
  unfold SCS.negate
  split_ifs with h
  · rfl
  · exact coeffID_constraints s _

@[simp] theorem negate_assertions (s : SCS) (t : Term) :
    ((s.negate t).1).assertions = s.assertions := by
  unfold SCS.negate
  split_ifs with h
  · rfl
  · exact coeffID_assertions s _

@[simp] theorem multiply_constraints (s : SCS) (t : Term) (c : Int) :
    ((s.multiply t c).1).constraints = s.constraints := by
  unfold SCS.multiply
  split_ifs <;> first | rfl | exact coeffID_constraints s _

@[simp] theorem multiply_assertions (s : SCS) (t : Term) (c : Int) :
    ((s.multiply t c).1).assertions = s.assertions := by
  unfold SCS.multiply
  split_ifs <;> first | rfl | exact coeffID_assertions s _

@[simp] theorem addConstraint_constraints (s : SCS) (c : SparseR1C) :
    (s.addConstraint c).constraints = s.constraints ++ [fixupGate c] := rfl

@[simp] theorem addConstraint_assertions (s : SCS) (c : SparseR1C) :
    (s.addConstraint c).assertions = s.assertions := rfl

@[simp] theorem recordAssertion_constraints (s : SCS) (c : SparseR1C) :
    (s.recordAssertion c).constraints = s.constraints := rfl

@[simp] theorem recordAssertion_assertions (s : SCS) (c : SparseR1C) :
    (s.recordAssertion c).assertions = s.assertions ++ [c] := rfl

@[simp] theorem fixupGate_solver (c : SparseR1C) :
    (fixupGate c).solver = c.solver := by
  unfold fixupGate
  dsimp only
  split_ifs <;> rfl

theorem countBinaryDec_append (l : List SparseR1C) (g : SparseR1C) :
    countBinaryDec (l ++ [g])
      = countBinaryDec l + (if g.solver = SolverTag.binaryDec then 1 else 0) := by
  simp [countBinaryDec, List.filter_append]
  split_ifs with h <;> simp [h]

theorem split_countBinaryDec (le : List Term) :
    ∀ (s : SCS) (acc : Term),
      countBinaryDec (((s.split acc le).1).constraints) = countBinaryDec s.constraints := by
  induction le with
  | nil => intro s acc; rfl
  | cons x rest ih =>
    intro s acc
    unfold SCS.split
    split_ifs with h
    · exact ih s _
    · rw [ih]
      simp [countBinaryDec_append]

theorem binLoop_countBinaryDec :
    ∀ (n : Nat) (s : SCS) (bd : List Term) (qi : Term) (acc : Int),
      countBinaryDec (((s.binLoop bd qi acc n).1).constraints)
        = countBinaryDec s.constraints + n := by
  intro n
  induction n with
  | zero => intro s bd qi acc; rfl
  | succ m ih =>
    intro s bd qi acc
    unfold SCS.binLoop
    dsimp only
    split
    · rw [ih]
      simp [countBinaryDec_append]
      omega
    · rw [ih]
      simp [countBinaryDec_append]
      omega

theorem binPre_countBinaryDec (s : SCS) (r1c : R1C) :
    countBinaryDec (((s.binPre r1c).1).constraints) = countBinaryDec s.constraints := by
  unfold SCS.binPre
  dsimp only
  split_ifs with h1 h2
  · simp [countBinaryDec_append]
  · simp [split_countBinaryDec, countBinaryDec_append]
  · simp [split_countBinaryDec]

/-- Claim C3 (amended): the binary-decomposition lowering always
completes and emits exactly one BinaryDec-tagged gate per term of L (the
O-side reduction gates are tagged SingleOutput), whether or not every bit
position found a matching term; no emptiness check is performed after the
loop and no error is reported. -/
theorem c3_binary_gate_count (s : SCS) (r1c : R1C) :
    countBinaryDec ((s.r1cToPlonkConstraintBinary r1c).constraints)
      = countBinaryDec s.constraints + r1c.L.length := by
  unfold SCS.r1cToPlonkConstraintBinary SCS.binWithLeftover
  dsimp only
  rw [binLoop_countBinaryDec, binPre_countBinaryDec]

/-!  Solver-tag lemmas for claim C5. -/

theorem allSingle_addConstraint {s : SCS} {c : SparseR1C}
    (hP : ∀ g ∈ s.constraints, g.solver = SolverTag.singleOutput)
    (hc : c.solver = SolverTag.singleOutput) :
    ∀ g ∈ (s.addConstraint c).constraints, g.solver = SolverTag.singleOutput := by
  intro g hg
  rcases List.mem_append.mp hg with h | h
  · exact hP g h
  · simp at h
    subst h
    rw [fixupGate_solver]
    exact hc

theorem split_assertions (le : List Term) :
    ∀ (s : SCS) (acc : Term), ((s.split acc le).1).assertions = s.assertions := by
  induction le with
  | nil => intro s acc; rfl
  | cons x rest ih =>
    intro s acc
    unfold SCS.split
    split_ifs with h
    · exact ih s _
    · rw [ih]
      simp

theorem split_allSingle (le : List Term) :
    ∀ (s : SCS) (acc : Term),
      (∀ g ∈ s.constraints, g.solver = SolverTag.singleOutput) →
      ∀ g ∈ ((s.split acc le).1).constraints, g.solver = SolverTag.singleOutput := by
  induction le with
  | nil => intro s acc hP; exact hP
  | cons x rest ih =>
    intro s acc hP
    unfold SCS.split
    split_ifs with h
    · exact ih s _ hP
    · have hmid : ∀ g ∈ ((((s.newTerm 1).1.addConstraint
          { L := acc, R := s.getCorrespondingTerm x, O := (s.newTerm 1).2 }).negate
          ((s.newTerm 1).2)).1).constraints, g.solver = SolverTag.singleOutput := by
        simp only [negate_constraints, addConstraint_constraints, newTerm_constraints]
        intro g hg
        rcases List.mem_append.mp hg with h1 | h1
        · exact hP g h1
        · simp at h1
          subst h1
          rw [fixupGate_solver]
      exact ih _ _ hmid

theorem allSingle_addConstraintH {s : SCS} {c : SparseR1C}
    (hc : c.solver = SolverTag.singleOutput)
    (hP : ∀ g ∈ s.constraints, g.solver = SolverTag.singleOutput) :
    ∀ g ∈ (s.addConstraint c).constraints, g.solver = SolverTag.singleOutput :=
  allSingle_addConstraint hP hc

set_option maxHeartbeats 3000000 in
theorem singleOut_allSingle (s : SCS) (r1c : R1C)
    (hP : ∀ g ∈ s.constraints, g.solver = SolverTag.singleOutput) :
    ∀ s', s.r1cToPlonkConstraintSingleOutput r1c = some s' →
      ∀ g ∈ s'.constraints, g.solver = SolverTag.singleOutput := by
  intro s' h
  unfold SCS.r1cToPlonkConstraintSingleOutput at h
  repeat split at h
  all_goals
    first
    | exact Option.noConfusion h
    | (simp only [Option.some.injEq] at h
       subst h
       dsimp only
       split <;>
         (simp only [SCS.f1, SCS.f2, SCS.f3, SCS.f4, SCS.f5, SCS.f6, SCS.f7, SCS.f8, SCS.f9,
            SCS.f10, SCS.f11, SCS.f12, SCS.f13, SCS.f14, SCS.f15, SCS.f16]
          repeat
            first
            | exact hP
            | apply allSingle_addConstraintH rfl
            | apply split_allSingle
            | simp only [coeffID_constraints, newTerm_constraints, newTermIdx_constraints,
                multiply_constraints, negate_constraints]))

theorem singleOut_assertions (s : SCS) (r1c : R1C) :
    ∀ s', s.r1cToPlonkConstraintSingleOutput r1c = some s' →
      s'.assertions = s.assertions := by
  intro s' h
  unfold SCS.r1cToPlonkConstraintSingleOutput at h
  repeat split at h
  all_goals
    first
    | exact Option.noConfusion h
    | (simp only [Option.some.injEq] at h
       subst h
       dsimp only
       split <;>
         simp only [SCS.f1, SCS.f2, SCS.f3, SCS.f4, SCS.f5, SCS.f6, SCS.f7, SCS.f8, SCS.f9,
           SCS.f10, SCS.f11, SCS.f12, SCS.f13, SCS.f14, SCS.f15, SCS.f16,
           coeffID_assertions, newTerm_assertions, newTermIdx_assertions,
           multiply_assertions, negate_assertions, addConstraint_assertions, split_assertions])

theorem allSingle_recordAssertionH {s : SCS} {c : SparseR1C}
    (hc : c.solver = SolverTag.singleOutput)
    (ha : ∀ g ∈ s.assertions, g.solver = SolverTag.singleOutput) :
    ∀ g ∈ (s.recordAssertion c).assertions, g.solver = SolverTag.singleOutput := by
  intro g hg
  rcases List.mem_append.mp hg with h | h
  · exact ha g h
  · simp at h
    subst h
    exact hc

theorem splitR1C_tags (s : SCS) (r1c : R1C)
    (hc : ∀ g ∈ s.constraints, g.solver = SolverTag.singleOutput)
    (ha : ∀ g ∈ s.assertions, g.solver = SolverTag.singleOutput) :
    (∀ g ∈ (s.splitR1C r1c).constraints, g.solver = SolverTag.singleOutput) ∧
    (∀ g ∈ (s.splitR1C r1c).assertions, g.solver = SolverTag.singleOutput) := by
  unfold SCS.splitR1C
  dsimp only
  split_ifs <;>
    refine ⟨?_, ?_⟩ <;>
    (repeat
      first
      | exact hc
      | exact ha
      | apply allSingle_addConstraintH rfl
      | apply allSingle_recordAssertionH rfl
      | apply split_allSingle
      | simp only [recordAssertion_constraints, recordAssertion_assertions,
          addConstraint_assertions, addConstraint_constraints,
          coeffID_constraints, coeffID_assertions, newTerm_constraints, newTerm_assertions,
          newTermIdx_constraints, newTermIdx_assertions, multiply_constraints,
          multiply_assertions, negate_constraints, negate_assertions, split_assertions])

theorem binPre_tags (s : SCS) (r1c : R1C)
    (hc : ∀ g ∈ s.constraints, g.solver = SolverTag.singleOutput) :
    ∀ g ∈ ((s.binPre r1c).1).constraints, g.solver = SolverTag.singleOutput := by
  unfold SCS.binPre
  dsimp only
  split_ifs <;>
    (repeat
      first
      | exact hc
      | apply allSingle_addConstraintH rfl
      | apply split_allSingle
      | simp only [recordAssertion_constraints, recordAssertion_assertions,
          addConstraint_assertions, addConstraint_constraints,
          coeffID_constraints, coeffID_assertions, newTerm_constraints, newTerm_assertions,
          newTermIdx_constraints, newTermIdx_assertions, multiply_constraints,
          multiply_assertions, negate_constraints, negate_assertions, split_assertions])

theorem binPre_assertions (s : SCS) (r1c : R1C) :
    ((s.binPre r1c).1).assertions = s.assertions := by
  unfold SCS.binPre
  dsimp only
  split_ifs <;>
    simp only [split_assertions, addConstraint_assertions, negate_assertions,
      newTerm_assertions, coeffID_assertions]

theorem binLoop_mem :
    ∀ (n : Nat) (s : SCS) (bd : List Term) (qi : Term) (acc : Int) (g : SparseR1C),
      g ∈ ((s.binLoop bd qi acc n).1).constraints →
      g ∈ s.constraints ∨ g.solver = SolverTag.binaryDec := by
  intro n
  induction n with
  | zero => intro s bd qi acc g hg; exact Or.inl hg
  | succ m ih =>
    intro s bd qi acc g hg
    unfold SCS.binLoop at hg
    dsimp only at hg
    split at hg <;>
      (rcases ih _ _ _ _ g hg with hmem | htag
       · simp only [addConstraint_constraints, negate_constraints, multiply_constraints,
           newTerm_constraints] at hmem
         rcases List.mem_append.mp hmem with h1 | h1
         · exact Or.inl h1
         · simp at h1
           subst h1
           exact Or.inr (by rw [fixupGate_solver])
       · exact Or.inr htag)

theorem binLoop_assertions :
    ∀ (n : Nat) (s : SCS) (bd : List Term) (qi : Term) (acc : Int),
      ((s.binLoop bd qi acc n).1).assertions = s.assertions := by
  intro n
  induction n with
  | zero => intro s bd qi acc; rfl
  | succ m ih =>
    intro s bd qi acc
    unfold SCS.binLoop
    dsimp only
    split <;>
      (rw [ih]
       try simp only [addConstraint_assertions, negate_assertions, multiply_assertions,
         newTerm_assertions]
       try rfl)

theorem binary_assertions (s : SCS) (r1c : R1C) :
    (s.r1cToPlonkConstraintBinary r1c).assertions = s.assertions := by
  unfold SCS.r1cToPlonkConstraintBinary SCS.binWithLeftover
  dsimp only
  rw [binLoop_assertions]
  exact binPre_assertions s r1c

/-- Claim C5 (amended): gates emitted by the per-bit loop of the binary
lowering carry the BinaryDec tag, while the single-output lowering, the
assertion lowering splitR1C (on both its Constraints and Assertions
outputs), the split helpers, and the O-side reduction gates of the binary
lowering all carry the default SingleOutput tag. -/
theorem c5_solver_tags :
    (∀ (s : SCS) (r1c : R1C),
      (∀ g ∈ s.constraints, g.solver = SolverTag.singleOutput) →
      ∀ s', s.r1cToPlonkConstraintSingleOutput r1c = some s' →
        (∀ g ∈ s'.constraints, g.solver = SolverTag.singleOutput) ∧
        s'.assertions = s.assertions) ∧
    (∀ (s : SCS) (r1c : R1C),
      (∀ g ∈ s.constraints, g.solver = SolverTag.singleOutput) →
      (∀ g ∈ s.assertions, g.solver = SolverTag.singleOutput) →
      (∀ g ∈ (s.splitR1C r1c).constraints, g.solver = SolverTag.singleOutput) ∧
      (∀ g ∈ (s.splitR1C r1c).assertions, g.solver = SolverTag.singleOutput)) ∧
    (∀ (s : SCS) (r1c : R1C),
      (∀ g ∈ s.constraints, g.solver = SolverTag.singleOutput) →
      ∀ g ∈ ((s.binPre r1c).1).constraints, g.solver = SolverTag.singleOutput) ∧
    (∀ (s : SCS) (r1c : R1C) (g : SparseR1C),
      g ∈ (s.r1cToPlonkConstraintBinary r1c).constraints →
      g ∈ ((s.binPre r1c).1).constraints ∨ g.solver = SolverTag.binaryDec) ∧
    (∀ (s : SCS) (r1c : R1C),
      (s.r1cToPlonkConstraintBinary r1c).assertions = s.assertions) := by
  refine ⟨?_, ?_, ?_, ?_, ?_⟩
  · intro s r1c hP s' h
    exact ⟨singleOut_allSingle s r1c hP s' h, singleOut_assertions s r1c s' h⟩
  · intro s r1c hc ha
    exact splitR1C_tags s r1c hc ha
  · intro s r1c hc
    exact binPre_tags s r1c hc
  · intro s r1c g hg
    unfold SCS.r1cToPlonkConstraintBinary SCS.binWithLeftover at hg
    dsimp only at hg
    exact binLoop_mem _ _ _ _ _ g hg
  · intro s r1c
    exact binary_assertions s r1c

/-- Witness for c5_solver_tags: the gate of the single-output lowering of
c5wR carries the SingleOutput tag. -/
theorem c5_solver_tags_witness :
    (c5wOut.constraints.getD 0 default).solver = SolverTag.singleOutput := by
  have h := c5_solver_tags
  exact (h.1 c5wS c5wR (by simp [c5wS]) c5wOut (by decide)).1 _ (by decide)

end GnarkScs

namespace GnarkWitness

/-!  Claim C9: witness serialization. -/

theorem toBytesBE_length : ∀ (w n : Nat), (toBytesBE w n).length = w := by
  intro w
  induction w with
  | zero => intro n; rfl
  | succ m ih => intro n; simp [toBytesBE, ih]

theorem fromBytesBE_append_one (l : List Nat) (b : Nat) :
    fromBytesBE (l ++ [b]) = fromBytesBE l * 256 + b := by
  simp [fromBytesBE, List.foldl_append]

theorem fromBytesBE_toBytesBE : ∀ (w n : Nat), fromBytesBE (toBytesBE w n) = n % 256 ^ w := by
  intro w
  induction w with
  | zero => intro n; simp [toBytesBE, fromBytesBE, Nat.mod_one]
  | succ m ih =>
    intro n
    rw [toBytesBE, fromBytesBE_append_one, ih]
    rw [Nat.pow_succ, Nat.mul_comm (256 ^ m) 256, Nat.mod_mul]
    omega

theorem flatten_enc_length (w : List Nat) :
    ((w.map (toBytesBE elemSize)).flatten).length = elemSize * w.length := by
  induction w with
  | nil => simp
  | cons e es ih =>
    simp only [List.map_cons, List.flatten_cons, List.length_append, ih, toBytesBE_length,
      List.length_cons]
    ring

theorem readElems_writeAll (w : List Nat) (hw : ∀ e ∈ w, e < 256 ^ elemSize) :
    readElems w.length ((w.map (toBytesBE elemSize)).flatten)
      = some (w, elemSize * w.length) := by
  induction w with
  | nil => rfl
  | cons e es ih =>
    have hlen : (toBytesBE elemSize e).length = elemSize := toBytesBE_length _ _
    have hstream : ((toBytesBE elemSize e ++ (es.map (toBytesBE elemSize)).flatten)).length
        = elemSize + elemSize * es.length := by
      rw [List.length_append, hlen, flatten_enc_length]
    rw [List.length_cons, readElems]
    have hnotlt : ¬ ((toBytesBE elemSize e ++ (es.map (toBytesBE elemSize)).flatten).length
        < elemSize) := by
      rw [hstream]; omega
    rw [List.map_cons, List.flatten_cons]
    simp only [hnotlt, if_false]
    rw [List.take_left' hlen, List.drop_left' hlen]
    rw [ih (fun x hx => hw x (List.mem_cons_of_mem e hx))]
    rw [fromBytesBE_toBytesBE, Nat.mod_eq_of_lt (hw e (List.mem_cons_self e es))]
    simp [Nat.mul_succ]

theorem writeTo_take4 (w : List Nat) :
    (writeTo w).take 4 = toBytesBE 4 (w.length % 2 ^ 32) := by
  unfold writeTo
  exact List.take_left' (toBytesBE_length 4 _)

theorem writeTo_drop4 (w : List Nat) :
    (writeTo w).drop 4 = (w.map (toBytesBE elemSize)).flatten := by
  unfold writeTo
  exact List.drop_left' (toBytesBE_length 4 _)

theorem fromBytesBE_writeTo_take4 (w : List Nat) (hlen : w.length < 2 ^ 32) :
    fromBytesBE ((writeTo w).take 4) = w.length := by
  rw [writeTo_take4, fromBytesBE_toBytesBE]
  have h4 : (256 : Nat) ^ 4 = 2 ^ 32 := by norm_num
  rw [h4, Nat.mod_mod_of_dvd _ dvd_rfl, Nat.mod_eq_of_lt hlen]

/-- Claim C9: WriteTo emits a 4-byte big-endian length prefix equal to
the number of elements (length below 2^32) followed by the canonical
encodings of the elements; LimitReadFrom with expectedSize equal to that
length reconstructs the witness exactly, consuming the prefix plus
elemSize bytes per element; and whenever the prefix differs from
expectedSize it fails with the invalid-witness-size error after
consuming exactly the 4 prefix bytes. -/
theorem c9_serialization_roundtrip :
    (∀ w : List Nat, (writeTo w).take 4 = toBytesBE 4 (w.length % 2 ^ 32)) ∧
    (∀ w : List Nat, (∀ e ∈ w, e < 256 ^ elemSize) → w.length < 2 ^ 32 →
      fromBytesBE ((writeTo w).take 4) = w.length ∧
      limitReadFrom (writeTo w) w.length = ReadRes.ok (elemSize * w.length + 4) w) ∧
    (∀ (stream : List Nat) (expected : Nat), 4 ≤ stream.length →
      fromBytesBE (stream.take 4) ≠ expected →
      limitReadFrom stream expected = ReadRes.err 4 "invalid witness size") := by
  refine ⟨writeTo_take4, ?_, ?_⟩
  · intro w hw hlen
    refine ⟨fromBytesBE_writeTo_take4 w hlen, ?_⟩
    unfold limitReadFrom
    have hl : (writeTo w).length = 4 + elemSize * w.length := by
      unfold writeTo
      rw [List.length_append, toBytesBE_length, flatten_enc_length]
    have hnl : ¬ ((writeTo w).length < 4) := by omega
    rw [if_neg hnl]
    rw [fromBytesBE_writeTo_take4 w hlen]
    simp only [ne_eq, not_true_eq_false, if_false, ite_false]
    have hbody : ((writeTo w).drop 4).take (w.length * frLimbs * 8)
        = (w.map (toBytesBE elemSize)).flatten := by
      rw [writeTo_drop4]
      apply List.take_of_length_le
      rw [flatten_enc_length]
      simp only [elemSize, frLimbs]
      omega
    rw [hbody, readElems_writeAll w hw]
  · intro stream expected h4 hne
    unfold limitReadFrom
    rw [if_neg (by omega)]
    rw [if_pos hne]

/-- Witness for c9_serialization_roundtrip: the two-element witness
[7, 300] round-trips through WriteTo and LimitReadFrom, consuming
4 + 2 * 40 bytes, and a stream whose prefix reads 5 is rejected with the
invalid-witness-size error against expectedSize 2. -/
theorem c9_serialization_roundtrip_witness :
    fromBytesBE ((writeTo [7, 300]).take 4) = 2 ∧
    limitReadFrom (writeTo [7, 300]) 2 = ReadRes.ok (elemSize * 2 + 4) [7, 300] ∧
    limitReadFrom [0, 0, 0, 5, 9] 2 = ReadRes.err 4 "invalid witness size" := by
  have h := c9_serialization_roundtrip
  have h1 := h.2.1 [7, 300] (by decide) (by decide)
  have h2 := h.2.2 [0, 0, 0, 5, 9] 2 (by decide) (by decide)
  exact ⟨h1.1, h1.2, h2⟩

end GnarkWitness
